import Mathlib

/-!
Shallow embedding of the two prediction pipelines of this repository,
`run_prediction_on_acpi.py` and `run_prediction_on_adni.py`.

Both scripts are single-threaded batch jobs with the same shape: resolve
per-subject time-series files for an atlas, derive integer classes from the
labels, iterate a seeded stratified shuffle split, and for every
(split, measure, classifier) combination compute a cross-validated score and
append one row to a global results accumulator; after each atlas the full
accumulated table is written to a per-atlas CSV path, and after the last
atlas to a top-level aggregate CSV path.

External collaborators (the filesystem, numpy loadtxt, the connectivity
feature extractor from the missing module `connectome_matrices`, the
classifier registry from the missing module `my_estimators`, and the
scikit-learn split generator) are modelled as explicit function parameters,
exactly as the specification directs: they are swappable black boxes whose
internals the scripts never inspect.  The loop structure, the constants, the
path construction, the filtering, and the accumulator handling are translated
from the source line by line.
-/

/-- Model of Python str.startswith: the characters of the pattern are a
List.isPrefixOf of the characters of the string. -/
def strStartsWith (s pat : String) : Bool :=
  pat.data.isPrefixOf s.data

/-- Model of Python str.endswith via reversed character lists. -/
def strEndsWith (s pat : String) : Bool :=
  pat.data.reverse.isPrefixOf s.data.reverse

/-- Model of the two-argument os.path.join on POSIX: an absolute second
component replaces the first; otherwise a separator is inserted unless the
first component is empty or already ends with the separator. -/
def pjoin (a b : String) : String :=
  if strStartsWith b "/" then b
  else if a == "" || strEndsWith a "/" then a ++ b
  else a ++ "/" ++ b

/-- One row of the ACPI phenotype CSV, restricted to the three columns the
script reads: SUBID, MJUser (the prediction target) and SJTYP (the
confound). -/
structure AcpiPheno where
  subid : Nat
  mjUser : Int
  sjtyp : Int
deriving Repr, DecidableEq

/-- The four aligned lists returned by ACPI _get_paths, in source order:
timeseries, mj_users, sjtyps, subject_ids. -/
structure AcpiPaths (D : Type) where
  timeseries : List D
  mj_users : List Int
  sjtyps : List Int
  subject_ids : List Nat
deriving Repr, DecidableEq

/-- The expected time-series file path built by ACPI _get_paths:
join(timeseries_dir, atlas, "00" + str(subj_id) + "-session_1" +
"_timeseries.txt"). -/
def acpiPath (timeseries_dir atlas : String) (subj_id : Nat) : String :=
  pjoin (pjoin timeseries_dir atlas)
    ("00" ++ toString subj_id ++ "-session_1" ++ "_timeseries.txt")

/-- First row of the phenotype table whose SUBID equals the given id: the
model of phenotypes[phenotypes[SUBID] == subj_id] followed by .values[0],
since a pandas boolean filter keeps rows in table order. -/
def acpiFirstRow (phenotypes : List AcpiPheno) (subj_id : Nat) :
    Option AcpiPheno :=
  (phenotypes.filter (fun r => r.subid == subj_id)).head?

/-- Body of the ACPI _get_paths loop over the SUBID column.  For each subject
id the expected file path is built; when the file exists, the loaded time
series, the MJUser and SJTYP values of the first phenotype row matching that
id, and the id itself are appended to the four lists.  A missing file is
skipped silently.  The one failure mode of the source, an IndexError from
.values[0] on an empty selection, is modelled by the none result. -/
def acpiLoop (phenotypes : List AcpiPheno) (atlas timeseries_dir : String)
    (fsExists : String → Bool) (loadtxt : String → D) :
    List Nat → Option (AcpiPaths D)
  | [] => some ⟨[], [], [], []⟩
  | subj_id :: rest =>
    let this_timeseries := acpiPath timeseries_dir atlas subj_id
    if fsExists this_timeseries then
      match acpiFirstRow phenotypes subj_id with
      | none => none
      | some this_pheno =>
        match acpiLoop phenotypes atlas timeseries_dir fsExists loadtxt rest with
        | none => none
        | some p =>
          some ⟨loadtxt this_timeseries :: p.timeseries,
                this_pheno.mjUser :: p.mj_users,
                this_pheno.sjtyp :: p.sjtyps,
                subj_id :: p.subject_ids⟩
    else acpiLoop phenotypes atlas timeseries_dir fsExists loadtxt rest

/-- ACPI _get_paths: iterate the SUBID column of the phenotype table. -/
def acpi_get_paths (phenotypes : List AcpiPheno) (atlas timeseries_dir : String)
    (fsExists : String → Bool) (loadtxt : String → D) : Option (AcpiPaths D) :=
  acpiLoop phenotypes atlas timeseries_dir fsExists loadtxt
    (phenotypes.map (fun r => r.subid))

/-- One row of the ADNI phenotype CSV, restricted to the two columns the
script reads: Image_ID and DX_Group. -/
structure AdniPheno where
  image_id : String
  dx_group : String
deriving Repr, DecidableEq

/-- The three aligned lists returned by ADNI _get_paths, in source order:
timeseries, diagnosis, IDs_image. -/
structure AdniPaths (D : Type) where
  timeseries : List D
  diagnosis : List String
  IDs_image : List String
deriving Repr, DecidableEq

/-- The expected time-series file path built by ADNI _get_paths:
join(timeseries_dir, atlas, str(image_id) + "_timeseries.txt"). -/
def adniPath (timeseries_dir atlas : String) (image_id : String) : String :=
  pjoin (pjoin timeseries_dir atlas) (image_id ++ "_timeseries.txt")

/-- ADNI _get_paths: iterate the rows of the phenotype table; when the
expected file of a row exists, append the loaded time series, the DX_Group
value at the same row index, and the Image_ID.  A missing file is skipped
silently; the function is total. -/
def adni_get_paths (atlas timeseries_dir : String)
    (fsExists : String → Bool) (loadtxt : String → D) :
    List AdniPheno → AdniPaths D
  | [] => ⟨[], [], []⟩
  | row :: rest =>
    let this_timeseries := adniPath timeseries_dir atlas row.image_id
    let p := adni_get_paths atlas timeseries_dir fsExists loadtxt rest
    if fsExists this_timeseries then
      ⟨loadtxt this_timeseries :: p.timeseries,
       row.dx_group :: p.diagnosis,
       row.image_id :: p.IDs_image⟩
    else p

/-- Configuration of the scikit-learn StratifiedShuffleSplit generator; the
held-out fraction is an exact rational. -/
structure StratifiedShuffleSplit where
  n_splits : Nat
  test_size : Rat
  random_state : Nat
deriving Repr, DecidableEq

/-- The ACPI generator: StratifiedShuffleSplit(n_splits=100, test_size=0.25,
random_state=0). -/
def acpi_cv : StratifiedShuffleSplit :=
  { n_splits := 100, test_size := 0.25, random_state := 0 }

/-- The ADNI generator: StratifiedShuffleSplit(n_splits=100, test_size=0.25,
random_state=0). -/
def adni_cv : StratifiedShuffleSplit :=
  { n_splits := 100, test_size := 0.25, random_state := 0 }

/-- The connectivity-measure list, identical in both scripts. -/
def measures : List String :=
  ["correlation", "partial correlation", "tangent"]

/-- The atlas list of the ACPI script. -/
def acpi_atlases : List String :=
  ["AAL", "HarvardOxford", "BASC/networks", "BASC/regions",
   "Power", "MODL/64", "MODL/128"]

/-- The atlas list of the ADNI script. -/
def adni_atlases : List String :=
  ["AAL", "HarvardOxford", "BASC/networks", "BASC/regions",
   "Power", "MODL/64", "MODL/128"]

/-- The static atlas-dimensionality dictionary of the ACPI script. -/
def acpi_dimensions : List (String × Nat) :=
  [("AAL", 116), ("HarvardOxford", 118), ("BASC/networks", 122),
   ("BASC/regions", 122), ("Power", 264), ("MODL/64", 64), ("MODL/128", 128)]

/-- The static atlas-dimensionality dictionary of the ADNI script. -/
def adni_dimensions : List (String × Nat) :=
  [("AAL", 116), ("HarvardOxford", 118), ("BASC/networks", 122),
   ("BASC/regions", 122), ("Power", 264), ("MODL/64", 64), ("MODL/128", 128)]

/-- Boolean order on Int used when modelling np.unique on integer labels. -/
def int_le (a b : Int) : Bool := decide (a ≤ b)

/-- Boolean order on String used when modelling np.unique on string
labels. -/
def str_le (a b : String) : Bool := decide (a ≤ b)

/-- Model of np.unique(xs, return_inverse=True).1: the sorted deduplicated
value list. -/
def npUniqueSorted [BEq α] (le : α → α → Bool) (xs : List α) : List α :=
  (xs.eraseDups).mergeSort le

/-- Model of np.unique(xs, return_inverse=True).2: for each element, its
index in the sorted deduplicated value list. -/
def npUniqueInverse [BEq α] (le : α → α → Bool) (xs : List α) : List Nat :=
  xs.map (fun x => (npUniqueSorted le xs).indexOf x)

/-- Model of numpy fancy indexing xs[idx] for an index list. -/
def pySelect (xs : List α) (idx : List Nat) : List α :=
  idx.filterMap (fun i => xs[i]?)

/-- A classifier of the registry, as the evaluation loop observes it: given
the scoring-metric name, the training features, the training labels, the
held-out features and the held-out labels, it produces one score.  This is
the documented contract of a scikit-learn fit-then-score round. -/
def Scorer (F S : Type) : Type :=
  String → List F → List Nat → List F → List Nat → S

/-- Model of sklearn cross_val_score(estimator, X, y, scoring, cv): one score
per (train, test) pair of the cv list, each computed by fitting on the rows
of X and y selected by the train indices and scoring on the rows selected by
the test indices. -/
def cross_val_score (estimator : Scorer F S) (X : List F) (y : List Nat)
    (scoring : String) (cvList : List (List Nat × List Nat)) : List S :=
  cvList.map (fun tt =>
    estimator scoring (pySelect X tt.1) (pySelect y tt.1)
      (pySelect X tt.2) (pySelect y tt.2))

/-- One row of the results accumulator; the fields are the eight columns the
scripts append to. -/
structure ResultRow (S : Type) where
  atlas : String
  measure : String
  classifier : String
  scores : List S
  iter_shuffle_split : Nat
  dataset : String
  covariance_estimator : String
  dimensionality : Nat
deriving Repr, DecidableEq

/-- The external collaborators of a pipeline run: the filesystem existence
check, np.loadtxt, the ConnectivityMeasure feature extractor (kind, time
series, optional confounds), the split generator (configuration, samples,
classes; the generator of the library raises a deterministic ValueError when
it cannot form a split, hence the Except), and the classifier registry. -/
structure Collaborators (D F S : Type) where
  fsExists : String → Bool
  loadtxt : String → D
  connectivity : String → List D → Option (List Int) → List F
  split : StratifiedShuffleSplit → List D → List Nat →
    Except String (List (List Nat × List Nat))
  classifiers : List (String × Scorer F S)

/-- The rows the ACPI script appends for one atlas: for every enumerated
split, for every measure, the connectivity features are recomputed from the
single resolved time-series list (with the SJTYP confounds), and for every
classifier of the registry one row is appended whose score is
cross_val_score at the roc_auc metric on exactly that split. -/
def acpi_atlas_rows (connectivity : String → List D → Option (List Int) → List F)
    (classifiers : List (String × Scorer F S)) (atlas : String)
    (p : AcpiPaths D) (classes : List Nat)
    (splits : List (List Nat × List Nat)) : List (ResultRow S) :=
  splits.enum.flatMap (fun it =>
    measures.flatMap (fun measure =>
      let conn_coefs := connectivity measure p.timeseries (some p.sjtyps)
      classifiers.map (fun kv =>
        { atlas := atlas
          measure := measure
          classifier := kv.1
          scores := cross_val_score kv.2 conn_coefs classes "roc_auc" [it.2]
          iter_shuffle_split := it.1
          dataset := "ACPI"
          covariance_estimator := "LedoitWolf"
          dimensionality := (acpi_dimensions.lookup atlas).getD 0 })))

/-- One ACPI atlas iteration: resolve the subject set once, derive the
integer classes from the MJUser labels, ask the generator for the splits, and
append the rows of this atlas to the accumulator.  The dictionary access
dimensions[atlas] never fails on the atlases of this run (see
acpi_atlases_dimensions_isSome), so it is modelled with a default. -/
def acpi_run_atlas (C : Collaborators D F S) (phenotypes : List AcpiPheno)
    (timeseries_dir atlas : String) (results : List (ResultRow S)) :
    Except String (List (ResultRow S)) :=
  match acpi_get_paths phenotypes atlas timeseries_dir C.fsExists C.loadtxt with
  | none => .error "IndexError"
  | some p =>
    let classes := npUniqueInverse int_le p.mj_users
    match C.split acpi_cv p.timeseries classes with
    | .error e => .error e
    | .ok splits =>
      .ok (results ++
        acpi_atlas_rows C.connectivity C.classifiers atlas p classes splits)

/-- The ACPI atlas loop with the per-atlas CSV writes: after each atlas the
whole accumulator to date is written to join(predictions_dir, atlas,
"scores.csv").  The writes are returned as (path, table) pairs in write
order, together with the final accumulator. -/
def acpi_run_loop (C : Collaborators D F S) (phenotypes : List AcpiPheno)
    (timeseries_dir predictions_dir : String) :
    List String → List (ResultRow S) →
    Except String (List (ResultRow S) × List (String × List (ResultRow S)))
  | [], results => .ok (results, [])
  | atlas :: rest, results =>
    match acpi_run_atlas C phenotypes timeseries_dir atlas results with
    | .error e => .error e
    | .ok results2 =>
      match acpi_run_loop C phenotypes timeseries_dir predictions_dir
          rest results2 with
      | .error e => .error e
      | .ok pr =>
        .ok (pr.1, (pjoin (pjoin predictions_dir atlas) "scores.csv",
                    results2) :: pr.2)

/-- The whole ACPI run: the atlas loop over the static atlas list starting
from the empty accumulator, followed by the aggregate write of the full
table to predictions_on_acpi.csv. -/
def acpi_run (C : Collaborators D F S) (phenotypes : List AcpiPheno)
    (timeseries_dir predictions_dir : String) :
    Except String (List (ResultRow S) × List (String × List (ResultRow S))) :=
  match acpi_run_loop C phenotypes timeseries_dir predictions_dir
      acpi_atlases [] with
  | .error e => .error e
  | .ok pr => .ok (pr.1, pr.2 ++ [("predictions_on_acpi.csv", pr.1)])

/-- The rows the ADNI script appends for one atlas; identical to the ACPI
shape except that fit_transform is called without confounds and the dataset
column reads ADNI. -/
def adni_atlas_rows (connectivity : String → List D → Option (List Int) → List F)
    (classifiers : List (String × Scorer F S)) (atlas : String)
    (p : AdniPaths D) (classes : List Nat)
    (splits : List (List Nat × List Nat)) : List (ResultRow S) :=
  splits.enum.flatMap (fun it =>
    measures.flatMap (fun measure =>
      let conn_coefs := connectivity measure p.timeseries none
      classifiers.map (fun kv =>
        { atlas := atlas
          measure := measure
          classifier := kv.1
          scores := cross_val_score kv.2 conn_coefs classes "roc_auc" [it.2]
          iter_shuffle_split := it.1
          dataset := "ADNI"
          covariance_estimator := "LedoitWolf"
          dimensionality := (adni_dimensions.lookup atlas).getD 0 })))

/-- One ADNI atlas iteration: resolve the subject set once, derive the
integer classes from the DX_Group labels, ask the generator for the splits,
and append the rows of this atlas to the accumulator. -/
def adni_run_atlas (C : Collaborators D F S) (phenotypic : List AdniPheno)
    (timeseries_dir atlas : String) (results : List (ResultRow S)) :
    Except String (List (ResultRow S)) :=
  let p := adni_get_paths atlas timeseries_dir C.fsExists C.loadtxt phenotypic
  let classes := npUniqueInverse str_le p.diagnosis
  match C.split adni_cv p.timeseries classes with
  | .error e => .error e
  | .ok splits =>
    .ok (results ++
      adni_atlas_rows C.connectivity C.classifiers atlas p classes splits)

/-- The ADNI atlas loop with the per-atlas CSV writes. -/
def adni_run_loop (C : Collaborators D F S) (phenotypic : List AdniPheno)
    (timeseries_dir predictions_dir : String) :
    List String → List (ResultRow S) →
    Except String (List (ResultRow S) × List (String × List (ResultRow S)))
  | [], results => .ok (results, [])
  | atlas :: rest, results =>
    match adni_run_atlas C phenotypic timeseries_dir atlas results with
    | .error e => .error e
    | .ok results2 =>
      match adni_run_loop C phenotypic timeseries_dir predictions_dir
          rest results2 with
      | .error e => .error e
      | .ok pr =>
        .ok (pr.1, (pjoin (pjoin predictions_dir atlas) "scores.csv",
                    results2) :: pr.2)

/-- The ADNI atlas loop over the static atlas list, followed by the aggregate
write to predictions_on_adni.csv. -/
def adni_run (C : Collaborators D F S) (phenotypic : List AdniPheno)
    (timeseries_dir predictions_dir : String) :
    Except String (List (ResultRow S) × List (String × List (ResultRow S))) :=
  match adni_run_loop C phenotypic timeseries_dir predictions_dir
      adni_atlases [] with
  | .error e => .error e
  | .ok pr => .ok (pr.1, pr.2 ++ [("predictions_on_adni.csv", pr.1)])

/-- The phenotype CSV path constant of the ADNI script; the source assigns
None. -/
def csv_file : Option String := none

/-- The ValueError message raised by the ADNI script when no csv path is
provided (quotation marks of the source message omitted). -/
def adni_csv_error : String :=
  "Path to a csv file is not provided. It should be provided to run this " ++
  "script to classify individuals between Alzheimers disease versus mild " ++
  "cognitive impairment. If given, the csv file should contain columns " ++
  "Image_ID for identifying subject id and DX_Group for diagnosis type."

/-- Top level of the ADNI script from the csv check on: when csv_file is
None a ValueError is raised before the phenotype CSV is read and before any
atlas is processed; otherwise the phenotype table is read and the run
proceeds. -/
def adni_main (csv : Option String) (read_csv : String → List AdniPheno)
    (C : Collaborators D F S) (timeseries_dir predictions_dir : String) :
    Except String (List (ResultRow S) × List (String × List (ResultRow S))) :=
  match csv with
  | none => .error adni_csv_error
  | some f =>
    let phenotypic := read_csv f
    adni_run C phenotypic timeseries_dir predictions_dir

/-- MJUser value that ACPI _get_paths records for a subject id: the MJUser of
the first phenotype row with that SUBID. -/
def mjOf (phenotypes : List AcpiPheno) (subj_id : Nat) : Int :=
  ((acpiFirstRow phenotypes subj_id).map AcpiPheno.mjUser).getD 0

/-- SJTYP value that ACPI _get_paths records for a subject id: the SJTYP of
the first phenotype row with that SUBID. -/
def sjOf (phenotypes : List AcpiPheno) (subj_id : Nat) : Int :=
  ((acpiFirstRow phenotypes subj_id).map AcpiPheno.sjtyp).getD 0

/-- Subject ids kept by ACPI _get_paths: the ids of the iterated list whose
expected file exists, in order and with multiplicity. -/
def acpiKept (atlas timeseries_dir : String) (fsExists : String → Bool)
    (sids : List Nat) : List Nat :=
  sids.filter (fun s => fsExists (acpiPath timeseries_dir atlas s))

lemma acpiLoop_eq (phenotypes : List AcpiPheno) (atlas timeseries_dir : String)
    (fsExists : String → Bool) (loadtxt : String → D) (sids : List Nat)
    (h : ∀ s ∈ sids, (acpiFirstRow phenotypes s).isSome) :
    acpiLoop phenotypes atlas timeseries_dir fsExists loadtxt sids =
      some ⟨(acpiKept atlas timeseries_dir fsExists sids).map
              (fun s => loadtxt (acpiPath timeseries_dir atlas s)),
            (acpiKept atlas timeseries_dir fsExists sids).map
              (fun s => mjOf phenotypes s),
            (acpiKept atlas timeseries_dir fsExists sids).map
              (fun s => sjOf phenotypes s),
            acpiKept atlas timeseries_dir fsExists sids⟩ := by
  induction sids with
  | nil => simp [acpiLoop, acpiKept]
  | cons s rest ih =>
    have hs : (acpiFirstRow phenotypes s).isSome := h s (by simp)
    obtain ⟨r, hr⟩ := Option.isSome_iff_exists.mp hs
    have hrest : ∀ x ∈ rest, (acpiFirstRow phenotypes x).isSome :=
      fun x hx => h x (by simp [hx])
    by_cases hfs : fsExists (acpiPath timeseries_dir atlas s)
    · simp [acpiLoop, hfs, hr, ih hrest, acpiKept, mjOf, sjOf,
        List.filter_cons]
    · simp [acpiLoop, hfs, ih hrest, acpiKept, List.filter_cons]

lemma acpiFirstRow_isSome_of_mem (phenotypes : List AcpiPheno)
    {s : Nat} (h : s ∈ phenotypes.map (fun r => r.subid)) :
    (acpiFirstRow phenotypes s).isSome := by
  obtain ⟨r, hr, hrs⟩ := List.mem_map.mp h
  rw [acpiFirstRow, Option.isSome_iff_ne_none, Ne, List.head?_eq_none_iff]
  intro hnil
  have := List.filter_eq_nil_iff.mp hnil r hr
  simp [hrs] at this

/-- Full characterization of ACPI _get_paths: it never fails, and each of the
four returned lists is the image of the kept subject-id list under the
corresponding per-subject derivation. -/
lemma acpi_get_paths_eq (phenotypes : List AcpiPheno)
    (atlas timeseries_dir : String) (fsExists : String → Bool)
    (loadtxt : String → D) :
    acpi_get_paths phenotypes atlas timeseries_dir fsExists loadtxt =
      some ⟨(acpiKept atlas timeseries_dir fsExists
               (phenotypes.map (fun r => r.subid))).map
              (fun s => loadtxt (acpiPath timeseries_dir atlas s)),
            (acpiKept atlas timeseries_dir fsExists
               (phenotypes.map (fun r => r.subid))).map
              (fun s => mjOf phenotypes s),
            (acpiKept atlas timeseries_dir fsExists
               (phenotypes.map (fun r => r.subid))).map
              (fun s => sjOf phenotypes s),
            acpiKept atlas timeseries_dir fsExists
              (phenotypes.map (fun r => r.subid))⟩ :=
  acpiLoop_eq phenotypes atlas timeseries_dir fsExists loadtxt _
    (fun _ hs => acpiFirstRow_isSome_of_mem phenotypes hs)

/-- Phenotype rows kept by ADNI _get_paths: the rows whose expected file
exists, in order and with multiplicity. -/
def adniKept (atlas timeseries_dir : String) (fsExists : String → Bool)
    (phenotypic : List AdniPheno) : List AdniPheno :=
  phenotypic.filter (fun r => fsExists (adniPath timeseries_dir atlas r.image_id))

/-- Full characterization of ADNI _get_paths: each of the three returned
lists is the image of the kept row list under the corresponding per-row
derivation. -/
lemma adni_get_paths_eq (atlas timeseries_dir : String)
    (fsExists : String → Bool) (loadtxt : String → D)
    (phenotypic : List AdniPheno) :
    adni_get_paths atlas timeseries_dir fsExists loadtxt phenotypic =
      ⟨(adniKept atlas timeseries_dir fsExists phenotypic).map
         (fun r => loadtxt (adniPath timeseries_dir atlas r.image_id)),
       (adniKept atlas timeseries_dir fsExists phenotypic).map
         (fun r => r.dx_group),
       (adniKept atlas timeseries_dir fsExists phenotypic).map
         (fun r => r.image_id)⟩ := by
  induction phenotypic with
  | nil => simp [adni_get_paths, adniKept]
  | cons row rest ih =>
    by_cases hfs : fsExists (adniPath timeseries_dir atlas row.image_id)
    · simp only [adni_get_paths, hfs, if_true, ih, adniKept,
        List.filter_cons, List.map_cons]
    · simp only [adni_get_paths, hfs, if_false, Bool.false_eq_true, ih,
        adniKept, List.filter_cons, if_neg hfs]

lemma acpi_atlases_dimensions_isSome :
    ∀ a ∈ acpi_atlases,
      acpi_dimensions.lookup a = some ((acpi_dimensions.lookup a).getD 0) := by
  decide

lemma adni_atlases_dimensions_isSome :
    ∀ a ∈ adni_atlases,
      adni_dimensions.lookup a = some ((adni_dimensions.lookup a).getD 0) := by
  decide

/-- Every row of one ACPI atlas iteration comes from one enumerated split,
one measure and one registry classifier, and its fields are exactly the
appended values of the source loop. -/
lemma acpi_atlas_rows_mem {D F S : Type}
    {connectivity : String → List D → Option (List Int) → List F}
    {classifiers : List (String × Scorer F S)} {atlas : String}
    {p : AcpiPaths D} {classes : List Nat}
    {splits : List (List Nat × List Nat)} {row : ResultRow S}
    (h : row ∈ acpi_atlas_rows connectivity classifiers atlas p classes splits) :
    ∃ it ∈ splits.enum, ∃ m ∈ measures, ∃ kv ∈ classifiers,
      row = { atlas := atlas
              measure := m
              classifier := kv.1
              scores := cross_val_score kv.2
                (connectivity m p.timeseries (some p.sjtyps)) classes
                "roc_auc" [it.2]
              iter_shuffle_split := it.1
              dataset := "ACPI"
              covariance_estimator := "LedoitWolf"
              dimensionality := (acpi_dimensions.lookup atlas).getD 0 } := by
  simp only [acpi_atlas_rows, List.mem_flatMap, List.mem_map] at h
  obtain ⟨it, hit, m, hm, kv, hkv, hrow⟩ := h
  exact ⟨it, hit, m, hm, kv, hkv, hrow.symm⟩

/-- Every row of one ADNI atlas iteration comes from one enumerated split,
one measure and one registry classifier, and its fields are exactly the
appended values of the source loop. -/
lemma adni_atlas_rows_mem {D F S : Type}
    {connectivity : String → List D → Option (List Int) → List F}
    {classifiers : List (String × Scorer F S)} {atlas : String}
    {p : AdniPaths D} {classes : List Nat}
    {splits : List (List Nat × List Nat)} {row : ResultRow S}
    (h : row ∈ adni_atlas_rows connectivity classifiers atlas p classes splits) :
    ∃ it ∈ splits.enum, ∃ m ∈ measures, ∃ kv ∈ classifiers,
      row = { atlas := atlas
              measure := m
              classifier := kv.1
              scores := cross_val_score kv.2
                (connectivity m p.timeseries none) classes "roc_auc" [it.2]
              iter_shuffle_split := it.1
              dataset := "ADNI"
              covariance_estimator := "LedoitWolf"
              dimensionality := (adni_dimensions.lookup atlas).getD 0 } := by
  simp only [adni_atlas_rows, List.mem_flatMap, List.mem_map] at h
  obtain ⟨it, hit, m, hm, kv, hkv, hrow⟩ := h
  exact ⟨it, hit, m, hm, kv, hkv, hrow.symm⟩

/-- Inversion of one successful ACPI atlas iteration: the subject set was
resolved (once), the generator produced the splits, and the new accumulator
is the old one extended by exactly the rows of this atlas. -/
lemma acpi_run_atlas_ok {D F S : Type} {C : Collaborators D F S}
    {phenotypes : List AcpiPheno} {timeseries_dir atlas : String}
    {results results2 : List (ResultRow S)}
    (h : acpi_run_atlas C phenotypes timeseries_dir atlas results =
      .ok results2) :
    ∃ p splits,
      acpi_get_paths phenotypes atlas timeseries_dir C.fsExists C.loadtxt =
        some p ∧
      C.split acpi_cv p.timeseries (npUniqueInverse int_le p.mj_users) =
        .ok splits ∧
      results2 = results ++ acpi_atlas_rows C.connectivity C.classifiers atlas
        p (npUniqueInverse int_le p.mj_users) splits := by
  unfold acpi_run_atlas at h
  cases hg : acpi_get_paths phenotypes atlas timeseries_dir C.fsExists
      C.loadtxt with
  | none => rw [hg] at h; simp at h
  | some p =>
    rw [hg] at h
    simp only at h
    cases hs : C.split acpi_cv p.timeseries
        (npUniqueInverse int_le p.mj_users) with
    | error e => rw [hs] at h; simp at h
    | ok splits =>
      rw [hs] at h
      simp only [Except.ok.injEq] at h
      exact ⟨p, splits, rfl, hs, h.symm⟩

/-- Inversion of one successful ADNI atlas iteration. -/
lemma adni_run_atlas_ok {D F S : Type} {C : Collaborators D F S}
    {phenotypic : List AdniPheno} {timeseries_dir atlas : String}
    {results results2 : List (ResultRow S)}
    (h : adni_run_atlas C phenotypic timeseries_dir atlas results =
      .ok results2) :
    ∃ splits,
      C.split adni_cv
        (adni_get_paths atlas timeseries_dir C.fsExists C.loadtxt
          phenotypic).timeseries
        (npUniqueInverse str_le
          (adni_get_paths atlas timeseries_dir C.fsExists C.loadtxt
            phenotypic).diagnosis) = .ok splits ∧
      results2 = results ++ adni_atlas_rows C.connectivity C.classifiers atlas
        (adni_get_paths atlas timeseries_dir C.fsExists C.loadtxt phenotypic)
        (npUniqueInverse str_le
          (adni_get_paths atlas timeseries_dir C.fsExists C.loadtxt
            phenotypic).diagnosis) splits := by
  unfold adni_run_atlas at h
  simp only at h
  cases hs : C.split adni_cv
      (adni_get_paths atlas timeseries_dir C.fsExists C.loadtxt
        phenotypic).timeseries
      (npUniqueInverse str_le
        (adni_get_paths atlas timeseries_dir C.fsExists C.loadtxt
          phenotypic).diagnosis) with
  | error e => rw [hs] at h; simp at h
  | ok splits =>
    rw [hs] at h
    simp only [Except.ok.injEq] at h
    exact ⟨splits, rfl, h.symm⟩

/-- Invariant of the ACPI atlas loop: the final accumulator extends the
initial one; there is one write per atlas; every written table extends the
initial accumulator and is extended by the final one; consecutively written
tables extend one another; and the i-th write goes to the scores.csv path of
the i-th atlas. -/
lemma acpi_run_loop_spec {D F S : Type} (C : Collaborators D F S)
    (phenotypes : List AcpiPheno) (timeseries_dir predictions_dir : String)
    (atlasList : List String) :
    ∀ (results final : List (ResultRow S))
      (writes : List (String × List (ResultRow S))),
      acpi_run_loop C phenotypes timeseries_dir predictions_dir atlasList
        results = .ok (final, writes) →
      (∃ u, final = results ++ u) ∧
      writes.length = atlasList.length ∧
      (∀ t ∈ writes, (∃ u, t.2 = results ++ u) ∧ ∃ u, final = t.2 ++ u) ∧
      (∀ i t₁ t₂, writes[i]? = some t₁ → writes[i + 1]? = some t₂ →
        ∃ u, t₂.2 = t₁.2 ++ u) ∧
      (∀ (i : Nat) (t : String × List (ResultRow S)), writes[i]? = some t →
        ∃ a, atlasList[i]? = some a ∧
          t.1 = pjoin (pjoin predictions_dir a) "scores.csv") := by
  induction atlasList with
  | nil =>
    intro results final writes h
    unfold acpi_run_loop at h
    simp only [Except.ok.injEq, Prod.mk.injEq] at h
    obtain ⟨hfin, hwr⟩ := h
    subst hfin; subst hwr
    refine ⟨⟨[], by simp⟩, rfl, by simp, ?_, by simp⟩
    intro i t₁ t₂ h1 _
    simp at h1
  | cons atlas rest ih =>
    intro results final writes h
    unfold acpi_run_loop at h
    cases h1 : acpi_run_atlas C phenotypes timeseries_dir atlas results with
    | error e => rw [h1] at h; simp at h
    | ok results2 =>
      rw [h1] at h
      simp only at h
      cases h2 : acpi_run_loop C phenotypes timeseries_dir predictions_dir
          rest results2 with
      | error e => rw [h2] at h; simp at h
      | ok pr =>
        rw [h2] at h
        simp only [Except.ok.injEq, Prod.mk.injEq] at h
        obtain ⟨hfin, hwr⟩ := h
        obtain ⟨p, splits, hg, hs, hres2⟩ := acpi_run_atlas_ok h1
        obtain ⟨⟨u0, hu0⟩, hlen, hmem, hchain, hpath⟩ :=
          ih results2 pr.1 pr.2 (by rw [h2])
        subst hfin; subst hwr
        refine ⟨?_, by simp [hlen], ?_, ?_, ?_⟩
        · exact ⟨_, by rw [hu0, hres2, List.append_assoc]⟩
        · intro t ht
          rcases List.mem_cons.mp ht with ht | ht
          · subst ht
            exact ⟨⟨_, by rw [hres2]⟩, ⟨u0, hu0⟩⟩
          · obtain ⟨⟨u1, hu1⟩, hu2⟩ := hmem t ht
            exact ⟨⟨_, by rw [hu1, hres2, List.append_assoc]⟩, hu2⟩
        · intro i t₁ t₂ ht₁ ht₂
          match i with
          | 0 =>
            simp only [List.getElem?_cons_zero, Option.some.injEq] at ht₁
            simp only [List.getElem?_cons_succ] at ht₂
            subst ht₁
            have ht₂m : t₂ ∈ pr.2 := by
              have := List.get?_eq_getElem? pr.2 0
              exact List.get?_mem (by rw [this, ht₂])
            obtain ⟨⟨u1, hu1⟩, _⟩ := hmem t₂ ht₂m
            exact ⟨u1, hu1⟩
          | Nat.succ j =>
            simp only [List.getElem?_cons_succ] at ht₁ ht₂
            exact hchain j t₁ t₂ ht₁ ht₂
        · intro i t ht
          match i with
          | 0 =>
            simp only [List.getElem?_cons_zero, Option.some.injEq] at ht
            subst ht
            exact ⟨atlas, by simp⟩
          | Nat.succ j =>
            simp only [List.getElem?_cons_succ] at ht
            obtain ⟨a, ha, hpa⟩ := hpath j t ht
            exact ⟨a, by simpa using ha, hpa⟩

/-- Invariant of the ADNI atlas loop, identical in shape to the ACPI one. -/
lemma adni_run_loop_spec {D F S : Type} (C : Collaborators D F S)
    (phenotypic : List AdniPheno) (timeseries_dir predictions_dir : String)
    (atlasList : List String) :
    ∀ (results final : List (ResultRow S))
      (writes : List (String × List (ResultRow S))),
      adni_run_loop C phenotypic timeseries_dir predictions_dir atlasList
        results = .ok (final, writes) →
      (∃ u, final = results ++ u) ∧
      writes.length = atlasList.length ∧
      (∀ t ∈ writes, (∃ u, t.2 = results ++ u) ∧ ∃ u, final = t.2 ++ u) ∧
      (∀ i t₁ t₂, writes[i]? = some t₁ → writes[i + 1]? = some t₂ →
        ∃ u, t₂.2 = t₁.2 ++ u) ∧
      (∀ (i : Nat) (t : String × List (ResultRow S)), writes[i]? = some t →
        ∃ a, atlasList[i]? = some a ∧
          t.1 = pjoin (pjoin predictions_dir a) "scores.csv") := by
  induction atlasList with
  | nil =>
    intro results final writes h
    unfold adni_run_loop at h
    simp only [Except.ok.injEq, Prod.mk.injEq] at h
    obtain ⟨hfin, hwr⟩ := h
    subst hfin; subst hwr
    refine ⟨⟨[], by simp⟩, rfl, by simp, ?_, by simp⟩
    intro i t₁ t₂ h1 _
    simp at h1
  | cons atlas rest ih =>
    intro results final writes h
    unfold adni_run_loop at h
    cases h1 : adni_run_atlas C phenotypic timeseries_dir atlas results with
    | error e => rw [h1] at h; simp at h
    | ok results2 =>
      rw [h1] at h
      simp only at h
      cases h2 : adni_run_loop C phenotypic timeseries_dir predictions_dir
          rest results2 with
      | error e => rw [h2] at h; simp at h
      | ok pr =>
        rw [h2] at h
        simp only [Except.ok.injEq, Prod.mk.injEq] at h
        obtain ⟨hfin, hwr⟩ := h
        obtain ⟨splits, hs, hres2⟩ := adni_run_atlas_ok h1
        obtain ⟨⟨u0, hu0⟩, hlen, hmem, hchain, hpath⟩ :=
          ih results2 pr.1 pr.2 (by rw [h2])
        subst hfin; subst hwr
        refine ⟨?_, by simp [hlen], ?_, ?_, ?_⟩
        · exact ⟨_, by rw [hu0, hres2, List.append_assoc]⟩
        · intro t ht
          rcases List.mem_cons.mp ht with ht | ht
          · subst ht
            exact ⟨⟨_, by rw [hres2]⟩, ⟨u0, hu0⟩⟩
          · obtain ⟨⟨u1, hu1⟩, hu2⟩ := hmem t ht
            exact ⟨⟨_, by rw [hu1, hres2, List.append_assoc]⟩, hu2⟩
        · intro i t₁ t₂ ht₁ ht₂
          match i with
          | 0 =>
            simp only [List.getElem?_cons_zero, Option.some.injEq] at ht₁
            simp only [List.getElem?_cons_succ] at ht₂
            subst ht₁
            have ht₂m : t₂ ∈ pr.2 := by
              have := List.get?_eq_getElem? pr.2 0
              exact List.get?_mem (by rw [this, ht₂])
            obtain ⟨⟨u1, hu1⟩, _⟩ := hmem t₂ ht₂m
            exact ⟨u1, hu1⟩
          | Nat.succ j =>
            simp only [List.getElem?_cons_succ] at ht₁ ht₂
            exact hchain j t₁ t₂ ht₁ ht₂
        · intro i t ht
          match i with
          | 0 =>
            simp only [List.getElem?_cons_zero, Option.some.injEq] at ht
            subst ht
            exact ⟨atlas, by simp⟩
          | Nat.succ j =>
            simp only [List.getElem?_cons_succ] at ht
            obtain ⟨a, ha, hpa⟩ := hpath j t ht
            exact ⟨a, by simpa using ha, hpa⟩

/-- Every row the ACPI atlas loop adds to the accumulator carries the name of
one processed atlas together with that atlas entry of the static dimensions
dictionary. -/
lemma acpi_run_loop_rows {D F S : Type} (C : Collaborators D F S)
    (phenotypes : List AcpiPheno) (timeseries_dir predictions_dir : String)
    (atlasList : List String) :
    ∀ (results final : List (ResultRow S))
      (writes : List (String × List (ResultRow S))),
      acpi_run_loop C phenotypes timeseries_dir predictions_dir atlasList
        results = .ok (final, writes) →
      ∀ row ∈ final, row ∈ results ∨
        ∃ a ∈ atlasList, row.atlas = a ∧
          row.dimensionality = (acpi_dimensions.lookup a).getD 0 := by
  induction atlasList with
  | nil =>
    intro results final writes h
    unfold acpi_run_loop at h
    simp only [Except.ok.injEq, Prod.mk.injEq] at h
    obtain ⟨hfin, hwr⟩ := h
    subst hfin
    exact fun row hr => Or.inl hr
  | cons atlas rest ih =>
    intro results final writes h
    unfold acpi_run_loop at h
    cases h1 : acpi_run_atlas C phenotypes timeseries_dir atlas results with
    | error e => rw [h1] at h; simp at h
    | ok results2 =>
      rw [h1] at h
      simp only at h
      cases h2 : acpi_run_loop C phenotypes timeseries_dir predictions_dir
          rest results2 with
      | error e => rw [h2] at h; simp at h
      | ok pr =>
        rw [h2] at h
        simp only [Except.ok.injEq, Prod.mk.injEq] at h
        obtain ⟨hfin, hwr⟩ := h
        subst hfin
        intro row hrow
        rcases ih results2 pr.1 pr.2 (by rw [h2]) row hrow with hmem | hrest
        · obtain ⟨p, splits, hg, hs, hres2⟩ := acpi_run_atlas_ok h1
          rw [hres2] at hmem
          rcases List.mem_append.mp hmem with hmem | hmem
          · exact Or.inl hmem
          · obtain ⟨it, _, m, _, kv, _, hrw⟩ := acpi_atlas_rows_mem hmem
            exact Or.inr ⟨atlas, by simp, by rw [hrw], by rw [hrw]⟩
        · obtain ⟨a, ha, hfields⟩ := hrest
          exact Or.inr ⟨a, by simp [ha], hfields⟩

/-- Every row the ADNI atlas loop adds to the accumulator carries the name of
one processed atlas together with that atlas entry of the static dimensions
dictionary. -/
lemma adni_run_loop_rows {D F S : Type} (C : Collaborators D F S)
    (phenotypic : List AdniPheno) (timeseries_dir predictions_dir : String)
    (atlasList : List String) :
    ∀ (results final : List (ResultRow S))
      (writes : List (String × List (ResultRow S))),
      adni_run_loop C phenotypic timeseries_dir predictions_dir atlasList
        results = .ok (final, writes) →
      ∀ row ∈ final, row ∈ results ∨
        ∃ a ∈ atlasList, row.atlas = a ∧
          row.dimensionality = (adni_dimensions.lookup a).getD 0 := by
  induction atlasList with
  | nil =>
    intro results final writes h
    unfold adni_run_loop at h
    simp only [Except.ok.injEq, Prod.mk.injEq] at h
    obtain ⟨hfin, hwr⟩ := h
    subst hfin
    exact fun row hr => Or.inl hr
  | cons atlas rest ih =>
    intro results final writes h
    unfold adni_run_loop at h
    cases h1 : adni_run_atlas C phenotypic timeseries_dir atlas results with
    | error e => rw [h1] at h; simp at h
    | ok results2 =>
      rw [h1] at h
      simp only at h
      cases h2 : adni_run_loop C phenotypic timeseries_dir predictions_dir
          rest results2 with
      | error e => rw [h2] at h; simp at h
      | ok pr =>
        rw [h2] at h
        simp only [Except.ok.injEq, Prod.mk.injEq] at h
        obtain ⟨hfin, hwr⟩ := h
        subst hfin
        intro row hrow
        rcases ih results2 pr.1 pr.2 (by rw [h2]) row hrow with hmem | hrest
        · obtain ⟨splits, hs, hres2⟩ := adni_run_atlas_ok h1
          rw [hres2] at hmem
          rcases List.mem_append.mp hmem with hmem | hmem
          · exact Or.inl hmem
          · obtain ⟨it, _, m, _, kv, _, hrw⟩ := adni_atlas_rows_mem hmem
            exact Or.inr ⟨atlas, by simp, by rw [hrw], by rw [hrw]⟩
        · obtain ⟨a, ha, hfields⟩ := hrest
          exact Or.inr ⟨a, by simp [ha], hfields⟩

/-- Inversion of a successful whole ACPI run in terms of the atlas loop. -/
lemma acpi_run_ok {D F S : Type} {C : Collaborators D F S}
    {phenotypes : List AcpiPheno} {timeseries_dir predictions_dir : String}
    {final : List (ResultRow S)}
    {writes : List (String × List (ResultRow S))}
    (h : acpi_run C phenotypes timeseries_dir predictions_dir =
      .ok (final, writes)) :
    ∃ ws, acpi_run_loop C phenotypes timeseries_dir predictions_dir
        acpi_atlases [] = .ok (final, ws) ∧
      writes = ws ++ [("predictions_on_acpi.csv", final)] := by
  unfold acpi_run at h
  cases h0 : acpi_run_loop (S := S) C phenotypes timeseries_dir
      predictions_dir acpi_atlases [] with
  | error e => rw [h0] at h; simp at h
  | ok pr =>
    rw [h0] at h
    simp only [Except.ok.injEq, Prod.mk.injEq] at h
    obtain ⟨hfin, hwr⟩ := h
    subst hfin
    exact ⟨pr.2, rfl, hwr.symm⟩

/-- Inversion of a successful whole ADNI run in terms of the atlas loop. -/
lemma adni_run_ok {D F S : Type} {C : Collaborators D F S}
    {phenotypic : List AdniPheno} {timeseries_dir predictions_dir : String}
    {final : List (ResultRow S)}
    {writes : List (String × List (ResultRow S))}
    (h : adni_run C phenotypic timeseries_dir predictions_dir =
      .ok (final, writes)) :
    ∃ ws, adni_run_loop C phenotypic timeseries_dir predictions_dir
        adni_atlases [] = .ok (final, ws) ∧
      writes = ws ++ [("predictions_on_adni.csv", final)] := by
  unfold adni_run at h
  cases h0 : adni_run_loop (S := S) C phenotypic timeseries_dir
      predictions_dir adni_atlases [] with
  | error e => rw [h0] at h; simp at h
  | ok pr =>
    rw [h0] at h
    simp only [Except.ok.injEq, Prod.mk.injEq] at h
    obtain ⟨hfin, hwr⟩ := h
    subst hfin
    exact ⟨pr.2, rfl, hwr.symm⟩

/-- C5: in the ADNI pipeline, when no phenotype CSV file path is supplied
(csv_file is None), the run fails fast: the ValueError is raised before any
phenotype loading, path resolution, feature extraction, classifier fitting
or result writing takes place.  The result is the error for every possible
reader and every possible set of collaborators, so no collaborator is ever
consulted; the source even hard-codes csv_file = None. -/
theorem adni_missing_csv_fails_fast :
    csv_file = none ∧
    ∀ (D F S : Type) (read_csv : String → List AdniPheno)
      (C : Collaborators D F S) (timeseries_dir predictions_dir : String),
      adni_main csv_file read_csv C timeseries_dir predictions_dir =
        .error adni_csv_error :=
  ⟨rfl, fun _ _ _ _ _ _ _ => rfl⟩

/-- C3: the path resolvers raise no error for a subject whose expected
time-series file does not exist.  ACPI _get_paths always returns a result
(the some case) whose subject_ids are exactly the SUBID occurrences whose
constructed file exists; ADNI _get_paths is total and returns exactly the
phenotype rows whose constructed file exists. -/
theorem get_paths_missing_files_skipped :
    (∀ (D : Type) (phenotypes : List AcpiPheno)
       (atlas timeseries_dir : String) (fsExists : String → Bool)
       (loadtxt : String → D),
       ∃ p, acpi_get_paths phenotypes atlas timeseries_dir fsExists loadtxt =
           some p ∧
         p.subject_ids = (phenotypes.map (fun r => r.subid)).filter
           (fun s => fsExists (acpiPath timeseries_dir atlas s))) ∧
    (∀ (D : Type) (phenotypic : List AdniPheno)
       (atlas timeseries_dir : String) (fsExists : String → Bool)
       (loadtxt : String → D),
       (adni_get_paths atlas timeseries_dir fsExists loadtxt
           phenotypic).IDs_image =
         (phenotypic.filter
           (fun r => fsExists (adniPath timeseries_dir atlas r.image_id))).map
           (fun r => r.image_id)) := by
  constructor
  · intro D phenotypes atlas timeseries_dir fsExists loadtxt
    exact ⟨_, acpi_get_paths_eq phenotypes atlas timeseries_dir fsExists
      loadtxt, rfl⟩
  · intro D phenotypic atlas timeseries_dir fsExists loadtxt
    simp [adni_get_paths_eq, adniKept]

/-- C1: every row appended to the results accumulator of either pipeline
records in its dimensionality column exactly the entry of the static atlas
dimensions dictionary for its atlas column. -/
theorem result_rows_dimensionality_matches :
    (∀ (D F S : Type) (C : Collaborators D F S)
       (phenotypes : List AcpiPheno)
       (timeseries_dir predictions_dir : String)
       (final : List (ResultRow S))
       (writes : List (String × List (ResultRow S))),
       acpi_run C phenotypes timeseries_dir predictions_dir =
         .ok (final, writes) →
       ∀ row ∈ final,
         acpi_dimensions.lookup row.atlas = some row.dimensionality) ∧
    (∀ (D F S : Type) (C : Collaborators D F S)
       (phenotypic : List AdniPheno)
       (timeseries_dir predictions_dir : String)
       (final : List (ResultRow S))
       (writes : List (String × List (ResultRow S))),
       adni_run C phenotypic timeseries_dir predictions_dir =
         .ok (final, writes) →
       ∀ row ∈ final,
         adni_dimensions.lookup row.atlas = some row.dimensionality) := by
  constructor
  · intro D F S C phenotypes timeseries_dir predictions_dir final writes h
      row hrow
    obtain ⟨ws, hloop, hwr⟩ := acpi_run_ok h
    rcases acpi_run_loop_rows C phenotypes timeseries_dir predictions_dir
        acpi_atlases [] final ws hloop row hrow with hmem | ⟨a, ha, hatlas, hdim⟩
    · exact absurd hmem (List.not_mem_nil row)
    · rw [hatlas, hdim]
      exact acpi_atlases_dimensions_isSome a ha
  · intro D F S C phenotypic timeseries_dir predictions_dir final writes h
      row hrow
    obtain ⟨ws, hloop, hwr⟩ := adni_run_ok h
    rcases adni_run_loop_rows C phenotypic timeseries_dir predictions_dir
        adni_atlases [] final ws hloop row hrow with hmem | ⟨a, ha, hatlas, hdim⟩
    · exact absurd hmem (List.not_mem_nil row)
    · rw [hatlas, hdim]
      exact adni_atlases_dimensions_isSome a ha

/-- C10: in the ACPI path resolver every occurrence of a SUBID value is
processed independently, so an id occurring k times (with an existing file)
appears k times in the returned lists, and for every occurrence the recorded
MJUser and SJTYP values are those of the first phenotype row with that
SUBID. -/
theorem acpi_duplicate_subids_use_first_row
    (D : Type) (phenotypes : List AcpiPheno) (atlas timeseries_dir : String)
    (fsExists : String → Bool) (loadtxt : String → D) (p : AcpiPaths D)
    (h : acpi_get_paths phenotypes atlas timeseries_dir fsExists loadtxt =
      some p) :
    p.subject_ids = (phenotypes.map (fun r => r.subid)).filter
      (fun s => fsExists (acpiPath timeseries_dir atlas s)) ∧
    ∀ (i s : Nat), p.subject_ids[i]? = some s →
      ∃ r, acpiFirstRow phenotypes s = some r ∧
        p.mj_users[i]? = some r.mjUser ∧ p.sjtyps[i]? = some r.sjtyp := by
  rw [acpi_get_paths_eq] at h
  simp only [Option.some.injEq] at h
  subst h
  refine ⟨rfl, ?_⟩
  intro i s hs
  have hsg : (acpiKept atlas timeseries_dir fsExists
      (phenotypes.map (fun r => r.subid))).get? i = some s := by
    rw [List.get?_eq_getElem?]; exact hs
  have hsmem := List.get?_mem hsg
  rw [acpiKept] at hsmem
  have hmm : s ∈ phenotypes.map (fun r => r.subid) :=
    (List.mem_filter.mp hsmem).1
  obtain ⟨r, hr⟩ :=
    Option.isSome_iff_exists.mp (acpiFirstRow_isSome_of_mem phenotypes hmm)
  refine ⟨r, hr, ?_, ?_⟩
  · simp [List.getElem?_map, hs, mjOf, hr]
  · simp [List.getElem?_map, hs, sjOf, hr]

/-- C4: the lists returned by the path resolvers are aligned.  In ACPI the
four returned lists have equal length and at every index all four entries
are derived from the same phenotype subject id (the loaded file path, the
first-matching-row MJUser and SJTYP, and the id itself); in ADNI the three
returned lists have equal length and at every index all three entries are
derived from the same phenotype row. -/
theorem get_paths_lists_aligned :
    (∀ (D : Type) (phenotypes : List AcpiPheno)
       (atlas timeseries_dir : String) (fsExists : String → Bool)
       (loadtxt : String → D) (p : AcpiPaths D),
       acpi_get_paths phenotypes atlas timeseries_dir fsExists loadtxt =
         some p →
       (p.timeseries.length = p.subject_ids.length ∧
        p.mj_users.length = p.subject_ids.length ∧
        p.sjtyps.length = p.subject_ids.length) ∧
       ∀ i : Nat, i < p.subject_ids.length →
         ∃ s, p.subject_ids[i]? = some s ∧
           s ∈ phenotypes.map (fun r => r.subid) ∧
           p.timeseries[i]? =
             some (loadtxt (acpiPath timeseries_dir atlas s)) ∧
           p.mj_users[i]? = some (mjOf phenotypes s) ∧
           p.sjtyps[i]? = some (sjOf phenotypes s)) ∧
    (∀ (D : Type) (phenotypic : List AdniPheno)
       (atlas timeseries_dir : String) (fsExists : String → Bool)
       (loadtxt : String → D),
       ((adni_get_paths atlas timeseries_dir fsExists loadtxt
           phenotypic).timeseries.length =
         (adni_get_paths atlas timeseries_dir fsExists loadtxt
           phenotypic).IDs_image.length ∧
        (adni_get_paths atlas timeseries_dir fsExists loadtxt
           phenotypic).diagnosis.length =
         (adni_get_paths atlas timeseries_dir fsExists loadtxt
           phenotypic).IDs_image.length) ∧
       ∀ i : Nat,
         i < (adni_get_paths atlas timeseries_dir fsExists loadtxt
           phenotypic).IDs_image.length →
         ∃ r, r ∈ phenotypic ∧
           (adni_get_paths atlas timeseries_dir fsExists loadtxt
             phenotypic).IDs_image[i]? = some r.image_id ∧
           (adni_get_paths atlas timeseries_dir fsExists loadtxt
             phenotypic).diagnosis[i]? = some r.dx_group ∧
           (adni_get_paths atlas timeseries_dir fsExists loadtxt
             phenotypic).timeseries[i]? =
             some (loadtxt (adniPath timeseries_dir atlas r.image_id))) := by
  constructor
  · intro D phenotypes atlas timeseries_dir fsExists loadtxt p h
    rw [acpi_get_paths_eq] at h
    simp only [Option.some.injEq] at h
    subst h
    refine ⟨⟨by simp, by simp, by simp⟩, ?_⟩
    intro i hi
    simp only [List.length_map] at hi
    have hik : i < (acpiKept atlas timeseries_dir fsExists
        (phenotypes.map (fun r => r.subid))).length := hi
    have hg := List.getElem?_eq_getElem hik
    refine ⟨(acpiKept atlas timeseries_dir fsExists
      (phenotypes.map (fun r => r.subid)))[i], ?_, ?_, ?_, ?_, ?_⟩
    · exact hg
    · have hmem := List.getElem_mem hik
      simp only [acpiKept] at hmem
      exact (List.mem_filter.mp hmem).1
    · simp [List.getElem?_map, hg]
    · simp [List.getElem?_map, hg]
    · simp [List.getElem?_map, hg]
  · intro D phenotypic atlas timeseries_dir fsExists loadtxt
    rw [adni_get_paths_eq]
    refine ⟨⟨by simp, by simp⟩, ?_⟩
    intro i hi
    simp only [List.length_map] at hi
    have hik : i < (adniKept atlas timeseries_dir fsExists
        phenotypic).length := hi
    have hg := List.getElem?_eq_getElem hik
    refine ⟨(adniKept atlas timeseries_dir fsExists phenotypic)[i],
      ?_, ?_, ?_, ?_⟩
    · have hmem := List.getElem_mem hik
      simp only [adniKept] at hmem
      exact (List.mem_filter.mp hmem).1
    · simp [List.getElem?_map, hg]
    · simp [List.getElem?_map, hg]
    · simp [List.getElem?_map, hg]

/-- C2: within one atlas iteration the subject set (time series, labels,
confounds) is resolved exactly once, before the split loop: on success the
resolver result is one fixed value, the split generator is consulted on
exactly that value, the accumulator grows by exactly the rows of this atlas,
and every (split, measure, classifier) row score is computed from that one
resolver result. -/
theorem subject_set_resolved_once_per_atlas :
    (∀ (D F S : Type) (C : Collaborators D F S)
       (phenotypes : List AcpiPheno) (timeseries_dir atlas : String)
       (results results2 : List (ResultRow S)),
       acpi_run_atlas C phenotypes timeseries_dir atlas results =
         .ok results2 →
       ∃ p, acpi_get_paths phenotypes atlas timeseries_dir C.fsExists
           C.loadtxt = some p ∧
         ∃ splits, C.split acpi_cv p.timeseries
             (npUniqueInverse int_le p.mj_users) = .ok splits ∧
           results2 = results ++ acpi_atlas_rows C.connectivity C.classifiers
             atlas p (npUniqueInverse int_le p.mj_users) splits ∧
           ∀ row ∈ acpi_atlas_rows C.connectivity C.classifiers atlas p
               (npUniqueInverse int_le p.mj_users) splits,
             ∃ it ∈ splits.enum, ∃ m ∈ measures, ∃ kv ∈ C.classifiers,
               row.scores = cross_val_score kv.2
                 (C.connectivity m p.timeseries (some p.sjtyps))
                 (npUniqueInverse int_le p.mj_users) "roc_auc" [it.2]) ∧
    (∀ (D F S : Type) (C : Collaborators D F S)
       (phenotypic : List AdniPheno) (timeseries_dir atlas : String)
       (results results2 : List (ResultRow S)),
       adni_run_atlas C phenotypic timeseries_dir atlas results =
         .ok results2 →
       ∃ splits, C.split adni_cv
           (adni_get_paths atlas timeseries_dir C.fsExists C.loadtxt
             phenotypic).timeseries
           (npUniqueInverse str_le
             (adni_get_paths atlas timeseries_dir C.fsExists C.loadtxt
               phenotypic).diagnosis) = .ok splits ∧
         results2 = results ++ adni_atlas_rows C.connectivity C.classifiers
           atlas
           (adni_get_paths atlas timeseries_dir C.fsExists C.loadtxt
             phenotypic)
           (npUniqueInverse str_le
             (adni_get_paths atlas timeseries_dir C.fsExists C.loadtxt
               phenotypic).diagnosis) splits ∧
         ∀ row ∈ adni_atlas_rows C.connectivity C.classifiers atlas
             (adni_get_paths atlas timeseries_dir C.fsExists C.loadtxt
               phenotypic)
             (npUniqueInverse str_le
               (adni_get_paths atlas timeseries_dir C.fsExists C.loadtxt
                 phenotypic).diagnosis) splits,
           ∃ it ∈ splits.enum, ∃ m ∈ measures, ∃ kv ∈ C.classifiers,
             row.scores = cross_val_score kv.2
               (C.connectivity m
                 (adni_get_paths atlas timeseries_dir C.fsExists C.loadtxt
                   phenotypic).timeseries none)
               (npUniqueInverse str_le
                 (adni_get_paths atlas timeseries_dir C.fsExists C.loadtxt
                   phenotypic).diagnosis) "roc_auc" [it.2]) := by
  constructor
  · intro D F S C phenotypes timeseries_dir atlas results results2 h
    obtain ⟨p, splits, hg, hs, hres2⟩ := acpi_run_atlas_ok h
    refine ⟨p, hg, splits, hs, hres2, ?_⟩
    intro row hrow
    obtain ⟨it, hit, m, hm, kv, hkv, hrw⟩ := acpi_atlas_rows_mem hrow
    exact ⟨it, hit, m, hm, kv, hkv, by rw [hrw]⟩
  · intro D F S C phenotypic timeseries_dir atlas results results2 h
    obtain ⟨splits, hs, hres2⟩ := adni_run_atlas_ok h
    refine ⟨splits, hs, hres2, ?_⟩
    intro row hrow
    obtain ⟨it, hit, m, hm, kv, hkv, hrw⟩ := adni_atlas_rows_mem hrow
    exact ⟨it, hit, m, hm, kv, hkv, by rw [hrw]⟩

/-- C6: the evaluators use a stratified shuffle-split generator configured
with exactly 100 splits, an exact held-out fraction of one quarter (0.25)
and random_state 0; an atlas iteration consults the generator only at that
configuration (two collaborator sets whose generators agree at the
configured value behave identically); and for each split and classifier the
score is cross_val_score at the roc_auc metric, which reads the features and
labels only through the train-index and test-index selections of that
split. -/
theorem cv_config_and_fit_score_on_split_indices :
    acpi_cv.n_splits = 100 ∧ acpi_cv.test_size = 1 / 4 ∧
    acpi_cv.random_state = 0 ∧
    adni_cv.n_splits = 100 ∧ adni_cv.test_size = 1 / 4 ∧
    adni_cv.random_state = 0 ∧
    (∀ (F S : Type) (f : Scorer F S) (X Xb : List F) (y yb : List Nat)
       (tr te : List Nat),
       pySelect X tr = pySelect Xb tr → pySelect X te = pySelect Xb te →
       pySelect y tr = pySelect yb tr → pySelect y te = pySelect yb te →
       cross_val_score f X y "roc_auc" [(tr, te)] =
         cross_val_score f Xb yb "roc_auc" [(tr, te)]) ∧
    (∀ (D F S : Type) (C Cb : Collaborators D F S),
       C.fsExists = Cb.fsExists → C.loadtxt = Cb.loadtxt →
       C.connectivity = Cb.connectivity → C.classifiers = Cb.classifiers →
       (∀ ts cls, C.split acpi_cv ts cls = Cb.split acpi_cv ts cls) →
       ∀ (phenotypes : List AcpiPheno) (timeseries_dir atlas : String)
         (results : List (ResultRow S)),
         acpi_run_atlas C phenotypes timeseries_dir atlas results =
           acpi_run_atlas Cb phenotypes timeseries_dir atlas results) ∧
    (∀ (D F S : Type) (C Cb : Collaborators D F S),
       C.fsExists = Cb.fsExists → C.loadtxt = Cb.loadtxt →
       C.connectivity = Cb.connectivity → C.classifiers = Cb.classifiers →
       (∀ ts cls, C.split adni_cv ts cls = Cb.split adni_cv ts cls) →
       ∀ (phenotypic : List AdniPheno) (timeseries_dir atlas : String)
         (results : List (ResultRow S)),
         adni_run_atlas C phenotypic timeseries_dir atlas results =
           adni_run_atlas Cb phenotypic timeseries_dir atlas results) := by
  refine ⟨rfl, by norm_num [acpi_cv], rfl, rfl, by norm_num [adni_cv], rfl,
    ?_, ?_, ?_⟩
  · intro F S f X Xb y yb tr te h1 h2 h3 h4
    simp [cross_val_score, h1, h2, h3, h4]
  · intro D F S C Cb h1 h2 h3 h4 h5 phenotypes timeseries_dir atlas results
    obtain ⟨f, l, co, sp, cl⟩ := C
    obtain ⟨fb, lb, cob, spb, clb⟩ := Cb
    simp only at h1 h2 h3 h4 h5
    subst h1; subst h2; subst h3; subst h4
    unfold acpi_run_atlas
    simp only [h5]
  · intro D F S C Cb h1 h2 h3 h4 h5 phenotypic timeseries_dir atlas results
    obtain ⟨f, l, co, sp, cl⟩ := C
    obtain ⟨fb, lb, cob, spb, clb⟩ := Cb
    simp only at h1 h2 h3 h4 h5
    subst h1; subst h2; subst h3; subst h4
    unfold adni_run_atlas
    simp only [h5]

/-- C7: after completing one atlas, the table written to that atlas's output
path contains every row accumulated so far in the run: consecutive writes
only ever extend the previous table (the accumulator is never reset between
atlases), there is one write per atlas at its scores.csv path plus one
final aggregate write, and the last write stores the full final table at the
top-level aggregate path. -/
theorem per_atlas_writes_accumulate :
    (∀ (D F S : Type) (C : Collaborators D F S)
       (phenotypes : List AcpiPheno)
       (timeseries_dir predictions_dir : String)
       (final : List (ResultRow S))
       (writes : List (String × List (ResultRow S))),
       acpi_run C phenotypes timeseries_dir predictions_dir =
         .ok (final, writes) →
       writes.length = acpi_atlases.length + 1 ∧
       (∀ (i : Nat) (t₁ t₂ : String × List (ResultRow S)),
         writes[i]? = some t₁ → writes[i + 1]? = some t₂ →
         ∃ u, t₂.2 = t₁.2 ++ u) ∧
       writes.getLast? = some ("predictions_on_acpi.csv", final) ∧
       (∀ (i : Nat) (t : String × List (ResultRow S)), writes[i]? = some t →
         i < acpi_atlases.length →
         ∃ a, acpi_atlases[i]? = some a ∧
           t.1 = pjoin (pjoin predictions_dir a) "scores.csv")) ∧
    (∀ (D F S : Type) (C : Collaborators D F S)
       (phenotypic : List AdniPheno)
       (timeseries_dir predictions_dir : String)
       (final : List (ResultRow S))
       (writes : List (String × List (ResultRow S))),
       adni_run C phenotypic timeseries_dir predictions_dir =
         .ok (final, writes) →
       writes.length = adni_atlases.length + 1 ∧
       (∀ (i : Nat) (t₁ t₂ : String × List (ResultRow S)),
         writes[i]? = some t₁ → writes[i + 1]? = some t₂ →
         ∃ u, t₂.2 = t₁.2 ++ u) ∧
       writes.getLast? = some ("predictions_on_adni.csv", final) ∧
       (∀ (i : Nat) (t : String × List (ResultRow S)), writes[i]? = some t →
         i < adni_atlases.length →
         ∃ a, adni_atlases[i]? = some a ∧
           t.1 = pjoin (pjoin predictions_dir a) "scores.csv")) := by
  constructor
  · intro D F S C phenotypes timeseries_dir predictions_dir final writes h
    obtain ⟨ws, hloop, hwr⟩ := acpi_run_ok h
    obtain ⟨hfin, hlen, hmem, hchain, hpath⟩ :=
      acpi_run_loop_spec C phenotypes timeseries_dir predictions_dir
        acpi_atlases [] final ws hloop
    subst hwr
    refine ⟨by simp [hlen], ?_, List.getLast?_concat ws, ?_⟩
    · intro i t₁ t₂ ht₁ ht₂
      by_cases hi1 : i + 1 < ws.length
      · have hi0 : i < ws.length := Nat.lt_of_succ_lt hi1
        rw [List.getElem?_append_left hi0] at ht₁
        rw [List.getElem?_append_left hi1] at ht₂
        exact hchain i t₁ t₂ ht₁ ht₂
      · by_cases hi2 : i + 1 = ws.length
        · have hi0 : i < ws.length := by omega
          rw [List.getElem?_append_left hi0] at ht₁
          rw [List.getElem?_append_right (by omega)] at ht₂
          have : i + 1 - ws.length = 0 := by omega
          rw [this, List.getElem?_cons_zero, Option.some.injEq] at ht₂
          subst ht₂
          obtain ⟨-, u, hu⟩ := hmem t₁ (List.get?_mem (by
            rw [List.get?_eq_getElem?]; exact ht₁))
          exact ⟨u, hu⟩
        · exfalso
          rw [List.getElem?_append_right (by omega)] at ht₂
          have : i + 1 - ws.length = (i - ws.length) + 1 := by omega
          rw [this, List.getElem?_cons_succ] at ht₂
          simp at ht₂
    · intro i t ht hi
      rw [← hlen] at hi
      rw [List.getElem?_append_left hi] at ht
      exact hpath i t ht
  · intro D F S C phenotypic timeseries_dir predictions_dir final writes h
    obtain ⟨ws, hloop, hwr⟩ := adni_run_ok h
    obtain ⟨hfin, hlen, hmem, hchain, hpath⟩ :=
      adni_run_loop_spec C phenotypic timeseries_dir predictions_dir
        adni_atlases [] final ws hloop
    subst hwr
    refine ⟨by simp [hlen], ?_, List.getLast?_concat ws, ?_⟩
    · intro i t₁ t₂ ht₁ ht₂
      by_cases hi1 : i + 1 < ws.length
      · have hi0 : i < ws.length := Nat.lt_of_succ_lt hi1
        rw [List.getElem?_append_left hi0] at ht₁
        rw [List.getElem?_append_left hi1] at ht₂
        exact hchain i t₁ t₂ ht₁ ht₂
      · by_cases hi2 : i + 1 = ws.length
        · have hi0 : i < ws.length := by omega
          rw [List.getElem?_append_left hi0] at ht₁
          rw [List.getElem?_append_right (by omega)] at ht₂
          have : i + 1 - ws.length = 0 := by omega
          rw [this, List.getElem?_cons_zero, Option.some.injEq] at ht₂
          subst ht₂
          obtain ⟨-, u, hu⟩ := hmem t₁ (List.get?_mem (by
            rw [List.get?_eq_getElem?]; exact ht₁))
          exact ⟨u, hu⟩
        · exfalso
          rw [List.getElem?_append_right (by omega)] at ht₂
          have : i + 1 - ws.length = (i - ws.length) + 1 := by omega
          rw [this, List.getElem?_cons_succ] at ht₂
          simp at ht₂
    · intro i t ht hi
      rw [← hlen] at hi
      rw [List.getElem?_append_left hi] at ht
      exact hpath i t ht

/-- C8: when the resolved subject set of an atlas is empty and the split
generator follows the documented library behavior of raising a deterministic
ValueError on an empty sample list, the atlas iteration fails explicitly
with exactly that error and appends zero result rows, rather than
proceeding with ill-defined splits. -/
theorem empty_subject_set_fails_explicitly :
    (∀ (D F S : Type) (C : Collaborators D F S)
       (phenotypes : List AcpiPheno) (timeseries_dir atlas : String)
       (results : List (ResultRow S)) (p : AcpiPaths D) (e : String),
       acpi_get_paths phenotypes atlas timeseries_dir C.fsExists C.loadtxt =
         some p →
       p.timeseries = [] →
       C.split acpi_cv p.timeseries (npUniqueInverse int_le p.mj_users) =
         .error e →
       acpi_run_atlas C phenotypes timeseries_dir atlas results =
         .error e) ∧
    (∀ (D F S : Type) (C : Collaborators D F S)
       (phenotypic : List AdniPheno) (timeseries_dir atlas : String)
       (results : List (ResultRow S)) (e : String),
       (adni_get_paths atlas timeseries_dir C.fsExists C.loadtxt
         phenotypic).timeseries = [] →
       C.split adni_cv
         (adni_get_paths atlas timeseries_dir C.fsExists C.loadtxt
           phenotypic).timeseries
         (npUniqueInverse str_le
           (adni_get_paths atlas timeseries_dir C.fsExists C.loadtxt
             phenotypic).diagnosis) = .error e →
       adni_run_atlas C phenotypic timeseries_dir atlas results =
         .error e) := by
  constructor
  · intro D F S C phenotypes timeseries_dir atlas results p e hg hts hsplit
    unfold acpi_run_atlas
    rw [hg]
    simp only
    rw [hsplit]
  · intro D F S C phenotypic timeseries_dir atlas results e hts hsplit
    unfold adni_run_atlas
    simp only
    rw [hsplit]

lemma isPrefixOf_single_cons (a c : Char) (l : List Char) :
    [a].isPrefixOf (c :: l) = (a == c) := by
  simp [List.isPrefixOf]

lemma isPrefixOf_single_append (a : Char) (l m : List Char) (hl : l ≠ [])
    (h : [a].isPrefixOf l = false) : [a].isPrefixOf (l ++ m) = false := by
  cases l with
  | nil => exact absurd rfl hl
  | cons c cs =>
    rw [isPrefixOf_single_cons] at h
    rw [List.cons_append, isPrefixOf_single_cons]
    exact h

lemma strStartsWith_slash_false (s : String) (c : Char) (l : List Char)
    (hd : s.data = c :: l) (hc : (('/' : Char) == c) = false) :
    strStartsWith s "/" = false := by
  unfold strStartsWith
  rw [show ("/" : String).data = ['/'] from rfl, hd, isPrefixOf_single_cons]
  exact hc

lemma data_of_append_left (a b : String) (c : Char) (l : List Char)
    (h : a.data = c :: l) : (a ++ b).data = c :: (l ++ b.data) := by
  rw [String.data_append, h, List.cons_append]

lemma data_ne_nil_of_ne_empty (s : String) (h : s ≠ "") : s.data ≠ [] := by
  cases s with
  | mk l => intro hd; exact h (by simp_all)

lemma beq_empty_false_of_data (s : String) (h : s.data ≠ []) :
    (s == "") = false := by
  rw [beq_eq_false_iff_ne]
  intro he
  subst he
  exact h rfl

lemma strEndsWith_slash_append (a b : String)
    (hb : strEndsWith b "/" = false) (hbne : b ≠ "") :
    strEndsWith (a ++ b) "/" = false := by
  unfold strEndsWith at hb ⊢
  rw [show ("/" : String).data.reverse = ['/'] from rfl] at hb ⊢
  rw [String.data_append, List.reverse_append]
  exact isPrefixOf_single_append '/' b.data.reverse a.data.reverse
    (fun hc => data_ne_nil_of_ne_empty b hbne (List.reverse_eq_nil_iff.mp hc))
    hb

/-- C9: the expected time-series file path of an ACPI subject follows the
naming convention timeseries_dir/atlas/00<subject id>-session_1_timeseries.txt:
the file name is the literal 00 prefix, the decimal subject id, and the
session suffix, joined under the atlas folder of the time-series directory
(stated for the ordinary separators: a nonempty directory without a trailing
slash and a nonempty atlas name without a leading or trailing slash). -/
theorem acpi_path_naming_convention
    (timeseries_dir atlas : String) (subj_id : Nat)
    (h1 : (timeseries_dir == "" || strEndsWith timeseries_dir "/") = false)
    (h2 : strStartsWith atlas "/" = false)
    (h3 : strEndsWith atlas "/" = false)
    (h4 : atlas ≠ "") :
    acpiPath timeseries_dir atlas subj_id =
      timeseries_dir ++ "/" ++ atlas ++ "/" ++
        ("00" ++ toString subj_id ++ "-session_1_timeseries.txt") := by
  have hd1 : ("00" ++ toString subj_id).data =
      '0' :: (['0'] ++ (toString subj_id).data) :=
    data_of_append_left "00" (toString subj_id) '0' ['0'] rfl
  have hd2 := data_of_append_left ("00" ++ toString subj_id) "-session_1"
    '0' _ hd1
  have hd3 := data_of_append_left ("00" ++ toString subj_id ++ "-session_1")
    "_timeseries.txt" '0' _ hd2
  have hfname : strStartsWith
      ("00" ++ toString subj_id ++ "-session_1" ++ "_timeseries.txt") "/" =
      false :=
    strStartsWith_slash_false _ '0' _ hd3 (by decide)
  have hne : ((timeseries_dir ++ "/" ++ atlas) == "") = false := by
    refine beq_empty_false_of_data _ ?_
    rw [String.data_append]
    intro hc
    rcases List.append_eq_nil.mp hc with ⟨hc1, hc2⟩
    exact data_ne_nil_of_ne_empty atlas h4 hc2
  have hends : strEndsWith (timeseries_dir ++ "/" ++ atlas) "/" = false :=
    strEndsWith_slash_append (timeseries_dir ++ "/") atlas h3 h4
  simp only [acpiPath, pjoin, h1, h2, hfname, hne, hends,
    Bool.false_eq_true, if_false, Bool.or_self]
  simp only [show ("-session_1_timeseries.txt" : String) =
    "-session_1" ++ "_timeseries.txt" from rfl, String.append_assoc]

/-- Constant classifier used to instantiate the registry in the concrete
examples. -/
def tinyScore : Scorer Nat Nat := fun _ _ _ _ _ => 7

/-- Concrete collaborator set: every file exists, loading yields 0, the
connectivity features are empty, the generator produces one fixed split on
nonempty input and fails on empty input (as the library does), and the
registry has one classifier. -/
def tinyCollab : Collaborators Nat Nat Nat :=
  { fsExists := fun _ => true
    loadtxt := fun _ => 0
    connectivity := fun _ _ _ => []
    split := fun _ ts _ =>
      if ts.isEmpty then .error "empty train set" else .ok [([0], [1])]
    classifiers := [("c", tinyScore)] }

/-- Concrete collaborator set where no file exists and the generator returns
no split. -/
def emptyCollab : Collaborators Nat Nat Nat :=
  { fsExists := fun _ => false
    loadtxt := fun _ => 0
    connectivity := fun _ _ _ => []
    split := fun _ _ _ => .ok []
    classifiers := [("c", tinyScore)] }

/-- One-subject ACPI phenotype table. -/
def tinyAcpiPheno : List AcpiPheno := [⟨5, 1, 2⟩]

/-- ACPI phenotype table with a duplicated SUBID whose two rows carry
different MJUser and SJTYP values. -/
def dupAcpiPheno : List AcpiPheno := [⟨7, 1, 10⟩, ⟨7, 2, 20⟩]

/-- One-subject ADNI phenotype table. -/
def tinyAdniPheno : List AdniPheno := [⟨"img1", "AD"⟩]

/-- Resolver result for tinyAcpiPheno under tinyCollab. -/
def tinyAcpiP : AcpiPaths Nat := ⟨[0], [1], [2], [5]⟩

/-- Resolver result for dupAcpiPheno under tinyCollab: the duplicated id is
kept twice and both occurrences carry the first row's MJUser and SJTYP. -/
def dupAcpiP : AcpiPaths Nat := ⟨[0, 0], [1, 1], [10, 10], [7, 7]⟩

/-- The three rows one ACPI atlas iteration appends under tinyCollab. -/
def tinyAcpiAtlasRows : List (ResultRow Nat) :=
  [⟨"AAL", "correlation", "c", [7], 0, "ACPI", "LedoitWolf", 116⟩,
   ⟨"AAL", "partial correlation", "c", [7], 0, "ACPI", "LedoitWolf", 116⟩,
   ⟨"AAL", "tangent", "c", [7], 0, "ACPI", "LedoitWolf", 116⟩]

/-- The three rows one ADNI atlas iteration appends under tinyCollab. -/
def tinyAdniAtlasRows : List (ResultRow Nat) :=
  [⟨"AAL", "correlation", "c", [7], 0, "ADNI", "LedoitWolf", 116⟩,
   ⟨"AAL", "partial correlation", "c", [7], 0, "ADNI", "LedoitWolf", 116⟩,
   ⟨"AAL", "tangent", "c", [7], 0, "ADNI", "LedoitWolf", 116⟩]

/-- Whole ACPI run under tinyCollab. -/
def tinyAcpiRun :
    Except String (List (ResultRow Nat) × List (String × List (ResultRow Nat))) :=
  acpi_run tinyCollab tinyAcpiPheno "T" "P"

/-- Final accumulator of tinyAcpiRun. -/
def tinyAcpiFinal : List (ResultRow Nat) :=
  match tinyAcpiRun with
  | .ok pr => pr.1
  | .error _ => []

/-- Writes of tinyAcpiRun. -/
def tinyAcpiWrites : List (String × List (ResultRow Nat)) :=
  match tinyAcpiRun with
  | .ok pr => pr.2
  | .error _ => []

/-- Whole ADNI run under tinyCollab. -/
def tinyAdniRun :
    Except String (List (ResultRow Nat) × List (String × List (ResultRow Nat))) :=
  adni_run tinyCollab tinyAdniPheno "T" "P"

/-- Final accumulator of tinyAdniRun. -/
def tinyAdniFinal : List (ResultRow Nat) :=
  match tinyAdniRun with
  | .ok pr => pr.1
  | .error _ => []

/-- Writes of tinyAdniRun. -/
def tinyAdniWrites : List (String × List (ResultRow Nat)) :=
  match tinyAdniRun with
  | .ok pr => pr.2
  | .error _ => []

/-- Whole ACPI run under emptyCollab (no subject has a file). -/
def tinyAcpiRun0 :
    Except String (List (ResultRow Nat) × List (String × List (ResultRow Nat))) :=
  acpi_run emptyCollab [] "T" "P"

/-- Writes of tinyAcpiRun0. -/
def tinyAcpiWrites0 : List (String × List (ResultRow Nat)) :=
  match tinyAcpiRun0 with
  | .ok pr => pr.2
  | .error _ => []

/-- Whole ADNI run under emptyCollab. -/
def tinyAdniRun0 :
    Except String (List (ResultRow Nat) × List (String × List (ResultRow Nat))) :=
  adni_run emptyCollab [] "T" "P"

/-- Writes of tinyAdniRun0. -/
def tinyAdniWrites0 : List (String × List (ResultRow Nat)) :=
  match tinyAdniRun0 with
  | .ok pr => pr.2
  | .error _ => []

/-- Default row used with headD in the concrete examples. -/
def tinyRowDefault : ResultRow Nat := ⟨"", "", "", [], 0, "", "", 0⟩

/-- Concrete instance of the dimensionality invariant on the first row of a
complete tiny ACPI run and of a complete tiny ADNI run. -/
theorem result_rows_dimensionality_matches_witness :
    acpi_dimensions.lookup ((tinyAcpiFinal.headD tinyRowDefault).atlas) =
      some ((tinyAcpiFinal.headD tinyRowDefault).dimensionality) ∧
    adni_dimensions.lookup ((tinyAdniFinal.headD tinyRowDefault).atlas) =
      some ((tinyAdniFinal.headD tinyRowDefault).dimensionality) := by
  constructor
  · exact result_rows_dimensionality_matches.1 Nat Nat Nat tinyCollab
      tinyAcpiPheno "T" "P" tinyAcpiFinal tinyAcpiWrites rfl
      (tinyAcpiFinal.headD tinyRowDefault) (by decide)
  · exact result_rows_dimensionality_matches.2 Nat Nat Nat tinyCollab
      tinyAdniPheno "T" "P" tinyAdniFinal tinyAdniWrites rfl
      (tinyAdniFinal.headD tinyRowDefault) (by decide)

/-- Concrete instance of the resolve-once property: one tiny atlas iteration
per pipeline succeeds with exactly the three expected rows, and the resolver
and generator results it is built from exist. -/
theorem subject_set_resolved_once_per_atlas_witness :
    (acpi_run_atlas tinyCollab tinyAcpiPheno "T" "AAL"
      ([] : List (ResultRow Nat)) = .ok tinyAcpiAtlasRows) ∧
    (∃ p, acpi_get_paths tinyAcpiPheno "AAL" "T" tinyCollab.fsExists
      tinyCollab.loadtxt = some p) ∧
    (adni_run_atlas tinyCollab tinyAdniPheno "T" "AAL"
      ([] : List (ResultRow Nat)) = .ok tinyAdniAtlasRows) ∧
    (∃ splits, tinyCollab.split adni_cv
      (adni_get_paths "AAL" "T" tinyCollab.fsExists tinyCollab.loadtxt
        tinyAdniPheno).timeseries
      (npUniqueInverse str_le
        (adni_get_paths "AAL" "T" tinyCollab.fsExists tinyCollab.loadtxt
          tinyAdniPheno).diagnosis) = .ok splits) :=
  ⟨rfl,
   Exists.imp (fun _ hp => hp.1)
     (subject_set_resolved_once_per_atlas.1 Nat Nat Nat tinyCollab
       tinyAcpiPheno "T" "AAL" [] tinyAcpiAtlasRows rfl),
   rfl,
   Exists.imp (fun _ hs => hs.1)
     (subject_set_resolved_once_per_atlas.2 Nat Nat Nat tinyCollab
       tinyAdniPheno "T" "AAL" [] tinyAdniAtlasRows rfl)⟩

/-- Concrete instance of the alignment property on one-subject tables. -/
theorem get_paths_lists_aligned_witness :
    (acpi_get_paths tinyAcpiPheno "AAL" "T" tinyCollab.fsExists
      tinyCollab.loadtxt = some tinyAcpiP) ∧
    (tinyAcpiP.timeseries.length = tinyAcpiP.subject_ids.length) ∧
    (∃ s, tinyAcpiP.subject_ids[0]? = some s ∧
      s ∈ tinyAcpiPheno.map (fun r => r.subid) ∧
      tinyAcpiP.timeseries[0]? = some (tinyCollab.loadtxt (acpiPath "T" "AAL" s)) ∧
      tinyAcpiP.mj_users[0]? = some (mjOf tinyAcpiPheno s) ∧
      tinyAcpiP.sjtyps[0]? = some (sjOf tinyAcpiPheno s)) ∧
    ((adni_get_paths "AAL" "T" tinyCollab.fsExists tinyCollab.loadtxt
        tinyAdniPheno).diagnosis.length =
      (adni_get_paths "AAL" "T" tinyCollab.fsExists tinyCollab.loadtxt
        tinyAdniPheno).IDs_image.length) ∧
    (∃ r, r ∈ tinyAdniPheno ∧
      (adni_get_paths "AAL" "T" tinyCollab.fsExists tinyCollab.loadtxt
        tinyAdniPheno).IDs_image[0]? = some r.image_id ∧
      (adni_get_paths "AAL" "T" tinyCollab.fsExists tinyCollab.loadtxt
        tinyAdniPheno).diagnosis[0]? = some r.dx_group ∧
      (adni_get_paths "AAL" "T" tinyCollab.fsExists tinyCollab.loadtxt
        tinyAdniPheno).timeseries[0]? =
        some (tinyCollab.loadtxt (adniPath "T" "AAL" r.image_id))) :=
  ⟨rfl,
   (get_paths_lists_aligned.1 Nat tinyAcpiPheno "AAL" "T"
     tinyCollab.fsExists tinyCollab.loadtxt tinyAcpiP rfl).1.1,
   (get_paths_lists_aligned.1 Nat tinyAcpiPheno "AAL" "T"
     tinyCollab.fsExists tinyCollab.loadtxt tinyAcpiP rfl).2 0 (by decide),
   (get_paths_lists_aligned.2 Nat tinyAdniPheno "AAL" "T"
     tinyCollab.fsExists tinyCollab.loadtxt).1.2,
   (get_paths_lists_aligned.2 Nat tinyAdniPheno "AAL" "T"
     tinyCollab.fsExists tinyCollab.loadtxt).2 0 (by decide)⟩

/-- Concrete instance of the generator-configuration and locality claims. -/
theorem cv_config_and_fit_score_on_split_indices_witness :
    (cross_val_score tinyScore ([] : List Nat) [0] "roc_auc" [([0], [1])] =
      cross_val_score tinyScore [] [0] "roc_auc" [([0], [1])]) ∧
    (acpi_run_atlas tinyCollab tinyAcpiPheno "T" "AAL"
      ([] : List (ResultRow Nat)) =
      acpi_run_atlas tinyCollab tinyAcpiPheno "T" "AAL" []) ∧
    (adni_run_atlas tinyCollab tinyAdniPheno "T" "AAL"
      ([] : List (ResultRow Nat)) =
      adni_run_atlas tinyCollab tinyAdniPheno "T" "AAL" []) :=
  ⟨cv_config_and_fit_score_on_split_indices.2.2.2.2.2.2.1 Nat Nat tinyScore
     [] [] [0] [0] [0] [1] rfl rfl rfl rfl,
   cv_config_and_fit_score_on_split_indices.2.2.2.2.2.2.2.1 Nat Nat Nat
     tinyCollab tinyCollab rfl rfl rfl rfl (fun _ _ => rfl)
     tinyAcpiPheno "T" "AAL" [],
   cv_config_and_fit_score_on_split_indices.2.2.2.2.2.2.2.2 Nat Nat Nat
     tinyCollab tinyCollab rfl rfl rfl rfl (fun _ _ => rfl)
     tinyAdniPheno "T" "AAL" []⟩

/-- Concrete instance of the write-accumulation property: the last write of
each tiny run stores the full final table at the aggregate path. -/
theorem per_atlas_writes_accumulate_witness :
    tinyAcpiWrites0.getLast? =
      some ("predictions_on_acpi.csv", ([] : List (ResultRow Nat))) ∧
    tinyAdniWrites0.getLast? =
      some ("predictions_on_adni.csv", ([] : List (ResultRow Nat))) :=
  ⟨(per_atlas_writes_accumulate.1 Nat Nat Nat emptyCollab [] "T" "P" []
      tinyAcpiWrites0 rfl).2.2.1,
   (per_atlas_writes_accumulate.2 Nat Nat Nat emptyCollab [] "T" "P" []
      tinyAdniWrites0 rfl).2.2.1⟩

/-- Concrete instance of the empty-subject-set behavior: with an empty
phenotype table the resolvers return empty lists and both atlas iterations
fail with the generator's deterministic error. -/
theorem empty_subject_set_fails_explicitly_witness :
    (acpi_get_paths ([] : List AcpiPheno) "AAL" "T" tinyCollab.fsExists
      tinyCollab.loadtxt = some ⟨[], [], [], []⟩) ∧
    (tinyCollab.split acpi_cv ([] : List Nat) (npUniqueInverse int_le []) =
      .error "empty train set") ∧
    (acpi_run_atlas tinyCollab ([] : List AcpiPheno) "T" "AAL"
      ([] : List (ResultRow Nat)) = .error "empty train set") ∧
    ((adni_get_paths "AAL" "T" tinyCollab.fsExists tinyCollab.loadtxt
      ([] : List AdniPheno)).timeseries = ([] : List Nat)) ∧
    (adni_run_atlas tinyCollab ([] : List AdniPheno) "T" "AAL"
      ([] : List (ResultRow Nat)) = .error "empty train set") :=
  ⟨rfl, rfl,
   empty_subject_set_fails_explicitly.1 Nat Nat Nat tinyCollab [] "T" "AAL"
     [] ⟨[], [], [], []⟩ "empty train set" rfl rfl rfl,
   rfl,
   empty_subject_set_fails_explicitly.2 Nat Nat Nat tinyCollab [] "T" "AAL"
     [] "empty train set" rfl rfl⟩

/-- Concrete instance of the naming convention: subject 32 of atlas AAL under
directory ./ACPI resolves to ./ACPI/AAL/0032-session_1_timeseries.txt. -/
theorem acpi_path_naming_convention_witness :
    (("./ACPI" == "" || strEndsWith "./ACPI" "/") = false) ∧
    (strStartsWith "AAL" "/" = false) ∧
    (strEndsWith "AAL" "/" = false) ∧
    ("AAL" ≠ "") ∧
    acpiPath "./ACPI" "AAL" 32 = "./ACPI/AAL/0032-session_1_timeseries.txt" :=
  ⟨by decide, by decide, by decide, by decide,
   (acpi_path_naming_convention "./ACPI" "AAL" 32 (by decide) (by decide)
     (by decide) (by decide)).trans (by decide)⟩

/-- Concrete instance of the duplicate-SUBID behavior: the id 7 occurs twice
in the table with different rows, is kept twice, and both occurrences record
the first row's values (MJUser 1, SJTYP 10, not the second row's 2 and
20). -/
theorem acpi_duplicate_subids_use_first_row_witness :
    (acpi_get_paths dupAcpiPheno "AAL" "T" tinyCollab.fsExists
      tinyCollab.loadtxt = some dupAcpiP) ∧
    (∃ r, acpiFirstRow dupAcpiPheno 7 = some r ∧
      dupAcpiP.mj_users[1]? = some r.mjUser ∧
      dupAcpiP.sjtyps[1]? = some r.sjtyp) :=
  ⟨rfl,
   (acpi_duplicate_subids_use_first_row Nat dupAcpiPheno "AAL" "T"
     tinyCollab.fsExists tinyCollab.loadtxt dupAcpiP rfl).2 1 7 (by decide)⟩
